import Mathlib

/-!
Verification development for the BLASTtv CS match-log analyser.

The Python sources are shallowly embedded below: pure string-processing
functions become Lean functions over `String` / `List Char`, the regular
expressions of the source are expressed as terms of a small pattern
language `Rgx` executed by a backtracking matcher that follows Python
`re` semantics (leftmost match, ordered alternation, greedy and lazy
repetition over character classes), and the stateful segmenters become
explicit folds over a state type.
-/

set_option maxRecDepth 20000

/-! ## Generic list and string helpers -/

/-- `leadsWith n h` is true when the list `n` is an initial segment of `h`. -/
def leadsWith : List Char → List Char → Bool
  | [], _ => true
  | _ :: _, [] => false
  | a :: as, b :: bs => a = b && leadsWith as bs

/-- Substring test on character lists (Python `needle in hay`). -/
def listHasSub (hay needle : List Char) : Bool :=
  match hay with
  | [] => leadsWith needle []
  | _ :: t => leadsWith needle hay || listHasSub t needle

/-- Substring test on strings (Python `needle in hay`). -/
def containsSub (hay needle : String) : Bool :=
  listHasSub hay.data needle.data

/-- The double-quote character. -/
def dqChar : Char := Char.ofNat 34

/-- The single-quote character. -/
def sqChar : Char := Char.ofNat 39

/-- Python whitespace class `\s` (ASCII part). -/
def wsChar (c : Char) : Bool :=
  c = ' ' || c = '\t' || c = '\n' || c = '\r' || c = '\x0b' || c = '\x0c'

/-- Python word-character class `\w` (ASCII part). -/
def wordChar (c : Char) : Bool :=
  c.isAlphanum || c = '_'

/-- Strip leading and trailing whitespace (Python `str.strip()`). -/
def strTrim (s : String) : String :=
  String.mk (((s.data.dropWhile wsChar).reverse.dropWhile wsChar).reverse)

/-- Lower-case a string (ASCII, Python `str.lower()` on this log alphabet). -/
def strLower (s : String) : String :=
  String.mk (s.data.map Char.toLower)

/-- Upper-case a string (ASCII, Python `str.upper()` on this log alphabet). -/
def strUpper (s : String) : String :=
  String.mk (s.data.map Char.toUpper)

/-- Decimal digits to a natural number (Python `int(...)` on a digit string). -/
def digitsToNat (cs : List Char) : Nat :=
  cs.foldl (fun a c => a * 10 + (c.toNat - 48)) 0

/-- Minimum of a list of naturals (pandas `.min()` over the round column). -/
def listMin : List Nat → Option Nat
  | [] => none
  | x :: xs =>
    match listMin xs with
    | none => some x
    | some m => some (Nat.min x m)

/-! ## A small backtracking regex engine

Pattern language covering the fragment of Python `re` used by the
sources: single-character classes, literals, sequencing, ordered
alternation, greedy/lazy repetition of a character class, capture
groups, and an end-of-input anchor (for `$`).  The matcher `reFirst`
explores alternatives in exactly Python's backtracking order, so the
first solution found agrees with the match Python produces. -/

inductive Rgx where
  | emp : Rgx
  | eos : Rgx
  | cls : (Char → Bool) → Rgx
  | seq : Rgx → Rgx → Rgx
  | alt : Rgx → Rgx → Rgx
  | repC : Bool → Bool → (Char → Bool) → Rgx
  | grp : Nat → Rgx → Rgx

/-- Try the continuation after dropping each count in `ns`, in order. -/
def tryDrops {α : Type} (cs : List Char) (g : List (Nat × List Char))
    (k : List Char → List (Nat × List Char) → Option α) : List Nat → Option α
  | [] => none
  | n :: ns =>
    match k (cs.drop n) g with
    | some r => some r
    | none => tryDrops cs g k ns

/-- Backtracking matcher in continuation style.  `repC lazy min1 p`
repeats the class `p`; greedy repetition tries the longest run first,
lazy repetition the shortest, mirroring Python's backtracking order. -/
def reFirst {α : Type} : Rgx → List Char → List (Nat × List Char) →
    (List Char → List (Nat × List Char) → Option α) → Option α
  | Rgx.emp, cs, g, k => k cs g
  | Rgx.eos, cs, g, k => match cs with | [] => k [] g | _ :: _ => none
  | Rgx.cls p, cs, g, k =>
    match cs with
    | [] => none
    | c :: cs' => if p c then k cs' g else none
  | Rgx.seq a b, cs, g, k =>
    reFirst a cs g (fun cs' g' => reFirst b cs' g' k)
  | Rgx.alt a b, cs, g, k =>
    match reFirst a cs g k with
    | some r => some r
    | none => reFirst b cs g k
  | Rgx.repC lz min1 p, cs, g, k =>
    let m := (cs.takeWhile p).length
    let lo := if min1 then 1 else 0
    let counts := List.range' lo (m + 1 - lo)
    tryDrops cs g k (if lz then counts else counts.reverse)
  | Rgx.grp n a, cs, g, k =>
    reFirst a cs g (fun cs' g' => k cs' ((n, cs.take (cs.length - cs'.length)) :: g'))

/-- Literal string pattern. -/
def reLit (s : String) : Rgx :=
  s.data.foldr (fun c acc => Rgx.seq (Rgx.cls (fun x => x = c)) acc) Rgx.emp

/-- Case-insensitive literal string pattern (re.IGNORECASE). -/
def reLitCI (s : String) : Rgx :=
  s.data.foldr (fun c acc => Rgx.seq (Rgx.cls (fun x => x.toLower = c.toLower)) acc) Rgx.emp

/-- Concatenation of a pattern list. -/
def reCat (rs : List Rgx) : Rgx :=
  rs.foldr Rgx.seq Rgx.emp

/-- Match anchored at the current position (Python `re.match`), returning
the captured groups and the remaining input after the match. -/
def reMatchAt (re : Rgx) (cs : List Char) :
    Option (List (Nat × List Char) × List Char) :=
  reFirst re cs [] (fun rest g => some (g, rest))

/-- Leftmost search (Python `re.search`): try every start position in
order and keep the first match. -/
def reSearchCore (re : Rgx) : List Char → Option (List (Nat × List Char) × List Char)
  | [] => reMatchAt re []
  | c :: cs =>
    match reMatchAt re (c :: cs) with
    | some r => some r
    | none => reSearchCore re cs

/-- Captured text of group `n`. -/
def grpGet (g : List (Nat × List Char)) (n : Nat) : Option String :=
  (g.find? (fun e => e.1 = n)).map (fun e => String.mk e.2)

/-- `re.search` returning group 1. -/
def searchG1 (re : Rgx) (s : String) : Option String :=
  (reSearchCore re s.data).bind (fun r => grpGet r.1 1)

/-! ## Timestamps

Both Python dialects parse `MM/DD/YYYY HH:MM:SS` with full calendar
validation (`datetime.strptime` / `pd.to_datetime` with `errors="coerce"`).
A timestamp is modelled as the number of seconds since 0001-01-01. -/

def isLeap (y : Nat) : Bool :=
  (y % 4 = 0 && y % 100 != 0) || y % 400 = 0

def monthDays (y m : Nat) : Nat :=
  if m = 2 then (if isLeap y then 29 else 28)
  else if m = 4 || m = 6 || m = 9 || m = 11 then 30
  else 31

def daysBeforeMonth (y m : Nat) : Nat :=
  ((List.range (m - 1)).map (fun i => monthDays y (i + 1))).sum

def daysBeforeYear (y : Nat) : Nat :=
  let n := y - 1
  365 * n + n / 4 - n / 100 + n / 400

def civilSeconds (y mo d h mi s : Nat) : Nat :=
  ((daysBeforeYear y + daysBeforeMonth y mo + (d - 1)) * 24 + h) * 3600 + mi * 60 + s

def validDT (y mo d h mi s : Nat) : Bool :=
  1 ≤ y && 1 ≤ mo && mo ≤ 12 && 1 ≤ d && d ≤ monthDays y mo && h ≤ 23 && mi ≤ 59 && s ≤ 59

def mkDT (y mo d h mi s : Nat) : Option Nat :=
  if validDT y mo d h mi s then some (civilSeconds y mo d h mi s) else none

/-- Split a character list at every occurrence of `sep`. -/
def splitChar (sep : Char) : List Char → List (List Char)
  | [] => [[]]
  | c :: cs =>
    let r := splitChar sep cs
    if c = sep then [] :: r
    else
      match r with
      | h :: t => (c :: h) :: t
      | [] => [[c]]

/-- Split a `M/D/YYYY`-shaped date string (`%m/%d/%Y`, 1-2 digit fields
allowed by the extend dialect's regex). -/
def parseDate (s : String) : Option (Nat × Nat × Nat) :=
  match splitChar ('/') s.data with
  | [ms, ds, ys] => some (digitsToNat ms, digitsToNat ds, digitsToNat ys)
  | _ => none

/-- Split a `HH:MM:SS` clock string. -/
def parseClock (s : String) : Option (Nat × Nat × Nat) :=
  match splitChar (':') s.data with
  | [hs, ms, ss] => some (digitsToNat hs, digitsToNat ms, digitsToNat ss)
  | _ => none

/-- `pd.to_datetime(f"{date} {time}", format="%m/%d/%Y %H:%M:%S", errors="coerce")`. -/
def dtParse (ds ts : String) : Option Nat :=
  match parseDate ds, parseClock ts with
  | some (mo, d, y), some (h, mi, s) => mkDT y mo d h mi s
  | _, _ => none

/-! ## `parse.py`: regex patterns -/

def lcLetter (c : Char) : Bool :=
  'a' ≤ c && c ≤ 'z'

def d2Rgx : Rgx :=
  Rgx.seq (Rgx.cls Char.isDigit) (Rgx.cls Char.isDigit)

/-- `LINE_RE = ^(\d{2}/\d{2}/\d{4}) - (\d{2}:\d{2}:\d{2}): (?P<msg>.*)$`. -/
def lineRE : Rgx :=
  reCat [Rgx.grp 1 (reCat [d2Rgx, reLit ("/"), d2Rgx, reLit ("/"), d2Rgx, d2Rgx]),
         reLit (" - "),
         Rgx.grp 2 (reCat [d2Rgx, reLit (":"), d2Rgx, reLit (":"), d2Rgx]),
         reLit (": "),
         Rgx.grp 3 (Rgx.repC false false (fun c => c != '\n')),
         Rgx.eos]

/-- `PLAYER_RE = "([^"<]+?)<(\d+)><(STEAM_[^>]+)><([^>]*)>"`. -/
def playerRE : Rgx :=
  reCat [Rgx.cls (fun c => c = dqChar),
         Rgx.grp 1 (Rgx.repC true true (fun c => c != dqChar && c != '<')),
         reLit ("<"),
         Rgx.grp 2 (Rgx.repC false true Char.isDigit),
         reLit ("><"),
         Rgx.grp 3 (Rgx.seq (reLit ("STEAM_")) (Rgx.repC false true (fun c => c != '>'))),
         reLit ("><"),
         Rgx.grp 4 (Rgx.repC false false (fun c => c != '>')),
         reLit (">\"")]

/-- `TRIGGERED_RE = triggered "(?P<trigger>[^"]+)"`. -/
def triggeredRE : Rgx :=
  reCat [reLit ("triggered \""),
         Rgx.grp 1 (Rgx.repC false true (fun c => c != dqChar)),
         reLit ("\"")]

/-- `PLAYER_VERB_RE = "\s*[^"]+?"\s+(?P<verb>[a-z][a-z ]+?)\s+"`. -/
def playerVerbRE : Rgx :=
  reCat [Rgx.cls (fun c => c = dqChar),
         Rgx.repC false false wsChar,
         Rgx.repC true true (fun c => c != dqChar),
         Rgx.cls (fun c => c = dqChar),
         Rgx.repC false true wsChar,
         Rgx.grp 1 (Rgx.seq (Rgx.cls lcLetter) (Rgx.repC true true (fun c => lcLetter c || c = ' '))),
         Rgx.repC false true wsChar,
         Rgx.cls (fun c => c = dqChar)]

/-- `PLAYER_ACTION_RE = "\s*[^"]+?"\s+(?P<verb>[a-z][a-z ]+?)\s+`. -/
def playerActionRE : Rgx :=
  reCat [Rgx.cls (fun c => c = dqChar),
         Rgx.repC false false wsChar,
         Rgx.repC true true (fun c => c != dqChar),
         Rgx.cls (fun c => c = dqChar),
         Rgx.repC false true wsChar,
         Rgx.grp 1 (Rgx.seq (Rgx.cls lcLetter) (Rgx.repC true true (fun c => lcLetter c || c = ' '))),
         Rgx.repC false true wsChar]

/-- `WEAPON_RE = with "(?P<weapon>[^"]+)"`. -/
def weaponRE : Rgx :=
  reCat [reLit ("with \""),
         Rgx.grp 1 (Rgx.repC false true (fun c => c != dqChar)),
         reLit ("\"")]

/-! ## `parse.py`: slugify and classify_event -/

/-- Collapse runs of underscores (the `_+ → _` substitution). -/
def collapseUnders (cs : List Char) : List Char :=
  cs.foldr
    (fun c acc =>
      if c = '_' then
        match acc with
        | '_' :: _ => acc
        | _ => '_' :: acc
      else c :: acc)
    []

/-- `slugify`: strip, lower-case, replace runs of non-word characters by a
single underscore, collapse underscore runs, strip underscores. -/
def slugify (s : String) : String :=
  let t := (strTrim s).data.map Char.toLower
  let u := collapseUnders (t.map (fun c => if wordChar c then c else '_'))
  String.mk (((u.dropWhile (fun c => c = '_')).reverse.dropWhile (fun c => c = '_')).reverse)

/-- `classify_event`: ordered pattern precedence, "other" catch-all. -/
def classifyEvent (msg : String) : String :=
  match searchG1 triggeredRE msg with
  | some t => "trigger_" ++ slugify t
  | none =>
    match searchG1 playerVerbRE msg with
    | some v => slugify v
    | none =>
      match searchG1 playerActionRE msg with
      | some v => slugify v
      | none =>
        if containsSub msg (" connected, address ") then "connect"
        else if containsSub msg (" entered the game") then "enter_game"
        else if containsSub msg (" disconnected") then "disconnect"
        else if containsSub msg (" switched from team ") then "team_switch"
        else if containsSub msg (" say ") || containsSub msg (" say_team ") then "chat"
        else "other"

/-! ## `parse.py`: player extraction and parsed rows -/

structure PlayerF where
  name : Option String
  userid : Option Nat
  steam : Option String
  team : Option String
deriving DecidableEq, Repr

def emptyPF : PlayerF :=
  { name := none, userid := none, steam := none, team := none }

def playerOfGroups (g : List (Nat × List Char)) : PlayerF :=
  { name := grpGet g 1,
    userid := (grpGet g 2).map (fun s => digitsToNat s.data),
    steam := grpGet g 3,
    team :=
      match grpGet g 4 with
      | some t => if t = ("" : String) then none else some t
      | none => none }

/-- Successive non-overlapping `PLAYER_RE` matches, stopping after `n`
players (`first_n_players`). -/
def findPlayers : Nat → List Char → List PlayerF
  | 0, _ => []
  | n + 1, cs =>
    match reSearchCore playerRE cs with
    | none => []
    | some (g, rest) => playerOfGroups g :: findPlayers n rest

def firstNPlayers (msg : String) (n : Nat) : List PlayerF :=
  findPlayers n msg.data

def tokLine (line : String) : Option (String × String × String) :=
  match reMatchAt lineRE line.data with
  | none => none
  | some (g, _) =>
    match grpGet g 1, grpGet g 2, grpGet g 3 with
    | some d, some t, some m => some (d, t, m)
    | _, _, _ => none

/-- The kill-field extraction block of `iter_parsed_lines` (lines 193-208). -/
def killFields (msg : String) : PlayerF × PlayerF × Option String × Option Bool :=
  if containsSub msg (" killed ") then
    let players := firstNPlayers msg 2
    let attacker := if 2 ≤ players.length then players.headD emptyPF else emptyPF
    let victim := if 2 ≤ players.length then (players.drop 1).headD emptyPF else emptyPF
    let weapon := searchG1 weaponRE msg
    (attacker, victim, weapon, some (containsSub msg ("(headshot)")))
  else (emptyPF, emptyPF, none, none)

structure ParsedLine where
  dt : Nat
  event : String
  msg : String
  round : Option Nat
  attacker_name : Option String
  attacker_userid : Option Nat
  attacker_steam : Option String
  attacker_team : Option String
  victim_name : Option String
  victim_userid : Option Nat
  victim_steam : Option String
  victim_team : Option String
  weapon : Option String
  is_headshot : Option Bool
deriving DecidableEq, Repr

def roundStartEvents : List String := ["trigger_round_start"]

def roundEndEvents : List String :=
  ["trigger_round_end", "trigger_round_officially_end", "trigger_round_ended"]

def restartEvents : List String := ["trigger_restart_round_1_second"]

structure IterState where
  inRound : Bool
  currentRound : Option Nat
deriving DecidableEq, Repr

/-- One loop iteration of `iter_parsed_lines`: tokenization, timestamp
validation, classification, restart/start handling, the keep decision,
field extraction, and the deferred end-of-round flag flip. -/
def iterStep (st : IterState) (raw : String) : IterState × Option ParsedLine :=
  match tokLine (strTrim raw) with
  | none => (st, none)
  | some (d, tm, msg) =>
    match dtParse d tm with
    | none => (st, none)
    | some dt =>
      let event := classifyEvent msg
      let st1 := if event ∈ restartEvents then
          { inRound := false, currentRound := some 0 } else st
      let st2 := if event ∈ roundStartEvents then
          { inRound := true,
            currentRound :=
              match st1.currentRound with
              | none => some 1
              | some 0 => some 1
              | some (Nat.succ k) => some (k + 2) }
        else st1
      if st2.inRound = false ∧
          ¬(event ∈ roundStartEvents ∨ event ∈ roundEndEvents ∨ event ∈ restartEvents) then
        (st2, none)
      else
        let kf := killFields msg
        let row : ParsedLine :=
          { dt := dt, event := event, msg := msg, round := st2.currentRound,
            attacker_name := kf.1.name, attacker_userid := kf.1.userid,
            attacker_steam := kf.1.steam, attacker_team := kf.1.team,
            victim_name := kf.2.1.name, victim_userid := kf.2.1.userid,
            victim_steam := kf.2.1.steam, victim_team := kf.2.1.team,
            weapon := kf.2.2.1, is_headshot := kf.2.2.2 }
        let st3 := if event ∈ roundEndEvents then
            { st2 with inRound := false } else st2
        (st3, some row)

def iterGo (st : IterState) : List String → List ParsedLine
  | [] => []
  | l :: ls =>
    match iterStep st l with
    | (st', o) => o.toList ++ iterGo st' ls

/-- `iter_parsed_lines` over an in-memory list of raw lines. -/
def iterParsedLines (raws : List String) : List ParsedLine :=
  iterGo { inRound := false, currentRound := none } raws

/-- `parse_to_dataframe`: run the iterator and normalise round numbers so
the first detected round becomes 1. -/
def parseToDataframe (raws : List String) : List ParsedLine :=
  let rows := iterParsedLines raws
  match listMin (rows.filterMap (fun r => r.round)) with
  | none => rows
  | some m =>
    if 1 < m then
      rows.map (fun r => { r with round := r.round.map (fun x => x - (m - 1)) })
    else rows

/-- The round column of the normalised dataframe, nulls excluded. -/
def dfRounds (raws : List String) : List Nat :=
  (parseToDataframe raws).filterMap (fun r => r.round)

/-- The event label a raw line receives, when it is tokenizable. -/
def lineEvent (raw : String) : Option String :=
  match tokLine (strTrim raw) with
  | none => none
  | some (d, tm, msg) =>
    match dtParse d tm with
    | none => none
    | some _ => some (classifyEvent msg)

/-! ## `parse_round_events.py`: group_non_empty_rounds -/

/-- `normalise_line_for_json`: replace double quotes by single quotes. -/
def normaliseLineForJson (line : String) : String :=
  String.mk (line.data.map (fun c => if c = dqChar then sqChar else c))

/-- Loop body of `group_non_empty_rounds`.  Rounds are stored in an
insertion-ordered association list (Python dict preserves insertion
order); an entry is only written on a `Round_End` whose accumulated
event list is non-empty. -/
def gnrGo (inR : Bool) (num : Nat) (key : Option String) (evs : List String)
    (acc : List (String × List String)) : List String → List (String × List String)
  | [] => acc
  | l :: ls =>
    if containsSub l ("World triggered \"Round_Start\"") then
      gnrGo true (num + 1) none [] acc ls
    else if inR && containsSub l ("World triggered \"Round_End\"") then
      gnrGo false num none []
        (if evs.isEmpty then acc
         else acc ++ [(key.getD ("round_" ++ toString num), evs)]) ls
    else if inR then
      gnrGo inR num (some (key.getD ("round_" ++ toString num)))
        (evs ++ [normaliseLineForJson l]) acc ls
    else gnrGo inR num key evs acc ls

def groupNonEmptyRounds (lines : List String) : List (String × List String) :=
  gnrGo false 0 none [] [] lines

/-! ## `extend_round_events.py`: regex patterns -/

/-- `TS_RE = ^(\d{1,2}/\d{1,2}/\d{4})\s+-\s+(\d{2}:\d{2}:\d{2}):`. -/
def d12Rgx : Rgx :=
  Rgx.alt (Rgx.seq (Rgx.cls Char.isDigit) (Rgx.cls Char.isDigit)) (Rgx.cls Char.isDigit)

def tsRE : Rgx :=
  reCat [Rgx.grp 1 (reCat [d12Rgx, reLit ("/"), d12Rgx, reLit ("/"), d2Rgx, d2Rgx]),
         Rgx.repC false true wsChar, reLit ("-"), Rgx.repC false true wsChar,
         Rgx.grp 2 (reCat [d2Rgx, reLit (":"), d2Rgx, reLit (":"), d2Rgx]),
         reLit (":")]

/-- `PLAYER_BLOB_RE = ^.+?<\d+><[^>]+><[^>]+>$`. -/
def playerBlobRE : Rgx :=
  reCat [Rgx.repC true true (fun c => c != '\n'),
         reLit ("<"), Rgx.repC false true Char.isDigit, reLit ("><"),
         Rgx.repC false true (fun c => c != '>'), reLit ("><"),
         Rgx.repC false true (fun c => c != '>'), reLit (">"), Rgx.eos]

/-- Anchored full `PLAYER_BLOB_RE` match as a boolean. -/
def blobMatch (s : String) : Bool :=
  (reMatchAt playerBlobRE s.data).isSome

/-- `KILL_RE` of the extend dialect (IGNORECASE, VERBOSE):
`^.*?:\s*'(?P<killer>[^']+)'\s+.*?killed\s+'(?P<victim>[^']+)'.*?\swith\s+'(?P<weapon>[^']+)'`. -/
def killRE : Rgx :=
  reCat [Rgx.repC true false (fun c => c != '\n'), reLit (":"),
         Rgx.repC false false wsChar, reLit ("'"),
         Rgx.grp 1 (Rgx.repC false true (fun c => c != sqChar)),
         reLit ("'"), Rgx.repC false true wsChar,
         Rgx.repC true false (fun c => c != '\n'), reLitCI ("killed"),
         Rgx.repC false true wsChar, reLit ("'"),
         Rgx.grp 2 (Rgx.repC false true (fun c => c != sqChar)),
         reLit ("'"),
         Rgx.repC true false (fun c => c != '\n'),
         Rgx.cls wsChar, reLitCI ("with"), Rgx.repC false true wsChar, reLit ("'"),
         Rgx.grp 3 (Rgx.repC false true (fun c => c != sqChar)),
         reLit ("'")]

/-- `TEAM_SCORED_RE = Team\s+'(?P<side>CT|TERRORIST)'\s+scored\s+'(?P<score>\d+)'`
(IGNORECASE). -/
def teamScoredRE : Rgx :=
  reCat [reLitCI ("Team"), Rgx.repC false true wsChar, reLit ("'"),
         Rgx.grp 1 (Rgx.alt (reLitCI ("CT")) (reLitCI ("TERRORIST"))), reLit ("'"),
         Rgx.repC false true wsChar, reLitCI ("scored"), Rgx.repC false true wsChar,
         reLit ("'"), Rgx.grp 2 (Rgx.repC false true Char.isDigit), reLit ("'")]

/-- `MATCHSTATUS_TEAM_RE = MatchStatus:\s*Team\s+playing\s+'(?P<side>CT|TERRORIST)'\s*:\s*(?P<team>.+?)\s*$`
(IGNORECASE). -/
def matchStatusTeamRE : Rgx :=
  reCat [reLitCI ("MatchStatus:"), Rgx.repC false false wsChar,
         reLitCI ("Team"), Rgx.repC false true wsChar, reLitCI ("playing"),
         Rgx.repC false true wsChar, reLit ("'"),
         Rgx.grp 1 (Rgx.alt (reLitCI ("CT")) (reLitCI ("TERRORIST"))), reLit ("'"),
         Rgx.repC false false wsChar, reLit (":"), Rgx.repC false false wsChar,
         Rgx.grp 2 (Rgx.repC true true (fun c => c != '\n')),
         Rgx.repC false false wsChar, Rgx.eos]

/-! ## `extend_round_events.py`: time helpers and kill extraction -/

/-- `parse_timestamp`: anchored `TS_RE` match plus `datetime.strptime`. -/
def parseTimestampE (line : String) : Option Nat :=
  match reMatchAt tsRE line.data with
  | none => none
  | some (g, _) =>
    match grpGet g 1, grpGet g 2 with
    | some d, some t => dtParse d t
    | _, _ => none

def pad2 (n : Nat) : String :=
  if n < 10 then "0" ++ toString n else toString n

/-- `time_only`: format the time-of-day as `HH:MM:SS`. -/
def timeOnly (dt : Nat) : String :=
  pad2 (dt / 3600 % 24) ++ ":" ++ pad2 (dt % 3600 / 60) ++ ":" ++ pad2 (dt % 60)

/-- `mmss_from_seconds`. -/
def mmssFromSeconds (seconds : Nat) : String :=
  pad2 (seconds / 60) ++ ":" ++ pad2 (seconds % 60)

/-- Maximum of a list of naturals (Python `max(...)`). -/
def listMax : List Nat → Option Nat
  | [] => none
  | x :: xs =>
    match listMax xs with
    | none => some x
    | some m => some (Nat.max x m)

/-- `infer_round_times`: the (min, max) timestamp pair over the round's
lines, or none if no line carries a parseable timestamp. -/
def inferRoundTimes (lines : List String) : Option (Nat × Nat) :=
  let dts := lines.filterMap parseTimestampE
  match listMin dts, listMax dts with
  | some a, some b => some (a, b)
  | _, _ => none

structure KillEvent where
  time : Option String
  killed_by : String
  killed : String
  weapon : String
  is_headshot : Bool
deriving DecidableEq, Repr

/-- `player_name`: text before the first `<`, stripped. -/
def playerName (blob : String) : String :=
  strTrim (String.mk (blob.data.takeWhile (fun c => c != '<')))

/-- The three captured groups of an anchored `KILL_RE` match. -/
def killSearch (line : String) : Option (String × String × String) :=
  match reMatchAt killRE line.data with
  | none => none
  | some (g, _) =>
    match grpGet g 1, grpGet g 2, grpGet g 3 with
    | some k, some v, some w => some (k, v, w)
    | _, _, _ => none

/-- `extract_kill_event` (the source's local `lower`, `killer_blob` and
`victim_blob` bindings are inlined). -/
def extractKillEvent (line : String) : Option KillEvent :=
  if containsSub (strLower line) ("killed other") then none
  else
    match killSearch line with
    | none => none
    | some (kb, vb, wp) =>
      if blobMatch (strTrim kb) = false then none
      else if blobMatch (strTrim vb) = false then none
      else
        some { time := (parseTimestampE line).map timeOnly,
               killed_by := playerName (strTrim kb),
               killed := playerName (strTrim vb),
               weapon := strLower (strTrim wp),
               is_headshot := containsSub (strLower line) ("headshot") }

/-! ## `extend_round_events.py`: MVP, winner, round summary -/

/-- Loop body of `compute_round_mvp`: a running tally with streaming
max-tracking (`counts[killer] > best_kills` updates the leader); the
source's local `killer`, `c` and the dict update are inlined. -/
def mvpGo (counts : String → Nat) (bestP : Option String) (bestK : Nat) :
    List KillEvent → Option String × Nat
  | [] => (bestP, bestK)
  | ev :: evs =>
    if bestK < counts ev.killed_by + 1 then
      mvpGo (fun a => if a = ev.killed_by then counts ev.killed_by + 1 else counts a)
        (some ev.killed_by) (counts ev.killed_by + 1) evs
    else
      mvpGo (fun a => if a = ev.killed_by then counts ev.killed_by + 1 else counts a)
        bestP bestK evs

def computeRoundMVP (evs : List KillEvent) : Option String × Nat :=
  mvpGo (fun _ => 0) none 0 evs

/-- A `TEAM_SCORED_RE` search: (side, score). -/
def teamScoredSearch (line : String) : Option (String × Nat) :=
  match reSearchCore teamScoredRE line.data with
  | none => none
  | some (g, _) =>
    match grpGet g 1, grpGet g 2 with
    | some side, some sc => some (side, digitsToNat sc.data)
    | _, _ => none

/-- `extract_scores`: last announced score per side, keyed by the
upper-cased side name (`CT` first component, `TERRORIST` second). -/
def extractScores (lines : List String) : Option Nat × Option Nat :=
  lines.foldl
    (fun acc line =>
      match teamScoredSearch line with
      | none => acc
      | some (side, n) =>
        if strUpper side = ("CT" : String) then (some n, acc.2) else (acc.1, some n))
    (none, none)

/-- A `MATCHSTATUS_TEAM_RE` search: (side, team). -/
def matchStatusTeamSearch (line : String) : Option (String × String) :=
  match reSearchCore matchStatusTeamRE line.data with
  | none => none
  | some (g, _) =>
    match grpGet g 1, grpGet g 2 with
    | some side, some team => some (side, team)
    | _, _ => none

/-- `extract_team_map`: last announced team name per side. -/
def extractTeamMap (lines : List String) : Option String × Option String :=
  lines.foldl
    (fun acc line =>
      match matchStatusTeamSearch line with
      | none => acc
      | some (side, team) =>
        if strUpper side = ("CT" : String) then (some (strTrim team), acc.2)
        else (acc.1, some (strTrim team)))
    (none, none)

/-- `extract_winner`. -/
def extractWinner (lines : List String) : Option String × Option String :=
  let scores := extractScores lines
  let teams := extractTeamMap lines
  match scores.1, scores.2 with
  | some ct, some t =>
    if ct = t then (none, none)
    else
      let side := if t < ct then ("CT" : String) else ("TERRORIST" : String)
      (some side, if side = ("CT" : String) then teams.1 else teams.2)
  | _, _ => (none, none)

structure RoundSummary where
  round_start : Option String
  round_end : Option String
  round_length_seconds : Option Nat
  round_length_minutes_seconds : Option String
  winning_side : Option String
  winning_team : Option String
  total_kills : Nat
  mvp_kills_player : Option String
  mvp_kills : Nat
  kill_events : List KillEvent
deriving DecidableEq, Repr

/-- `build_round_summary`. -/
def buildRoundSummary (lines : List String) : RoundSummary :=
  let times := inferRoundTimes lines
  let kill_events := lines.filterMap extractKillEvent
  let total_kills := kill_events.length
  let mvp := match kill_events with | [] => (none, 0) | _ :: _ => computeRoundMVP kill_events
  let w := extractWinner lines
  match times with
  | none =>
    { round_start := none, round_end := none, round_length_seconds := none,
      round_length_minutes_seconds := none,
      winning_side := w.1, winning_team := w.2,
      total_kills := total_kills,
      mvp_kills_player := mvp.1, mvp_kills := mvp.2,
      kill_events := kill_events }
  | some (a, b) =>
    { round_start := some (timeOnly a), round_end := some (timeOnly b),
      round_length_seconds := some (b - a),
      round_length_minutes_seconds := some (mmssFromSeconds (b - a)),
      winning_side := w.1, winning_team := w.2,
      total_kills := total_kills,
      mvp_kills_player := mvp.1, mvp_kills := mvp.2,
      kill_events := kill_events }

/-! ## `match_overview2json.py`: patterns -/

/-- `TS_RE = ^(?P<ts>\d{2}/\d{2}/\d{4} - \d{2}:\d{2}:\d{2}): (?P<body>.*)$`. -/
def ovTsRE : Rgx :=
  reCat [Rgx.grp 1 (reCat [d2Rgx, reLit ("/"), d2Rgx, reLit ("/"), d2Rgx, d2Rgx,
                           reLit (" - "), d2Rgx, reLit (":"), d2Rgx, reLit (":"), d2Rgx]),
         reLit (": "),
         Rgx.grp 2 (Rgx.repC false false (fun c => c != '\n')),
         Rgx.eos]

/-- `MATCH_START_RE = ^World triggered 'Match_Start' on '(?P<map>[^']+)'$`. -/
def ovMatchStartRE : Rgx :=
  reCat [reLit ("World triggered 'Match_Start' on '"),
         Rgx.grp 1 (Rgx.repC false true (fun c => c != sqChar)),
         reLit ("'"), Rgx.eos]

/-- `TEAM_PLAYING_RE = ^MatchStatus: Team playing '(?P<side>CT|TERRORIST)': (?P<team>.+)$`. -/
def ovTeamPlayingRE : Rgx :=
  reCat [reLit ("MatchStatus: Team playing '"),
         Rgx.grp 1 (Rgx.alt (reLit ("CT")) (reLit ("TERRORIST"))),
         reLit ("': "),
         Rgx.grp 2 (Rgx.repC false true (fun c => c != '\n')),
         Rgx.eos]

/-- `ROUND_START_RE = ^World triggered 'Round_Start'$`. -/
def ovRoundStartRE : Rgx :=
  Rgx.seq (reLit ("World triggered 'Round_Start'")) Rgx.eos

/-- `ROUND_END_RE = ^World triggered 'Round_End'$`. -/
def ovRoundEndRE : Rgx :=
  Rgx.seq (reLit ("World triggered 'Round_End'")) Rgx.eos

/-- `NOTICE_RE = ^Team '(?P<side>CT|TERRORIST)' triggered 'SFUI_Notice_(?P<notice>[^']+)' \(CT '(?P<ct>\d+)'\) \(T '(?P<t>\d+)'\)$`. -/
def ovNoticeRE : Rgx :=
  reCat [reLit ("Team '"),
         Rgx.grp 1 (Rgx.alt (reLit ("CT")) (reLit ("TERRORIST"))),
         reLit ("' triggered 'SFUI_Notice_"),
         Rgx.grp 2 (Rgx.repC false true (fun c => c != sqChar)),
         reLit ("' (CT '"),
         Rgx.grp 3 (Rgx.repC false true Char.isDigit),
         reLit ("') (T '"),
         Rgx.grp 4 (Rgx.repC false true Char.isDigit),
         reLit ("')"), Rgx.eos]

/-- `SCORE_RE = ^MatchStatus: Score: (?P<ct>\d+):(?P<t>\d+) on map '(?P<map>[^']+)' RoundsPlayed: (?P<rp>\d+)$`. -/
def ovScoreRE : Rgx :=
  reCat [reLit ("MatchStatus: Score: "),
         Rgx.grp 1 (Rgx.repC false true Char.isDigit),
         reLit (":"),
         Rgx.grp 2 (Rgx.repC false true Char.isDigit),
         reLit (" on map '"),
         Rgx.grp 3 (Rgx.repC false true (fun c => c != sqChar)),
         reLit ("' RoundsPlayed: "),
         Rgx.grp 4 (Rgx.repC false true Char.isDigit),
         Rgx.eos]

/-! ## `match_overview2json.py`: main loop -/

/-- Parse the `ts` group of `ovTsRE` (`%m/%d/%Y - %H:%M:%S`). -/
def ovTs (s : String) : Option Nat :=
  dtParse (String.mk (s.data.take 10)) (String.mk (s.data.drop 13))

/-- `parse_ts_body`: strptime failure is modelled as a null timestamp
(in the Python source an invalid in-range-shaped date raises and the
run produces no output at all, so every output the source can produce
is covered). -/
def parseTsBody (line : String) : Option Nat × String :=
  match reMatchAt ovTsRE line.data with
  | none => (none, strTrim line)
  | some (g, _) =>
    match grpGet g 1, grpGet g 2 with
    | some ts, some body => (ovTs ts, strTrim body)
    | _, _ => (none, strTrim line)

def ovMatchStart (body : String) : Option String :=
  (reMatchAt ovMatchStartRE body.data).bind (fun r => grpGet r.1 1)

def ovTeamPlaying (body : String) : Option (String × String) :=
  match reMatchAt ovTeamPlayingRE body.data with
  | none => none
  | some (g, _) =>
    match grpGet g 1, grpGet g 2 with
    | some side, some team => some (side, team)
    | _, _ => none

def ovRoundStartB (body : String) : Bool :=
  (reMatchAt ovRoundStartRE body.data).isSome

def ovRoundEndB (body : String) : Bool :=
  (reMatchAt ovRoundEndRE body.data).isSome

def ovNotice (body : String) : Option (String × String × Nat × Nat) :=
  match reMatchAt ovNoticeRE body.data with
  | none => none
  | some (g, _) =>
    match grpGet g 1, grpGet g 2, grpGet g 3, grpGet g 4 with
    | some side, some ntc, some ct, some t =>
      some (side, ntc, digitsToNat ct.data, digitsToNat t.data)
    | _, _, _, _ => none

def ovScore (body : String) : Option (Nat × Nat × Nat × String) :=
  match reMatchAt ovScoreRE body.data with
  | none => none
  | some (g, _) =>
    match grpGet g 1, grpGet g 2, grpGet g 3, grpGet g 4 with
    | some ct, some t, some mp, some rp =>
      some (digitsToNat ct.data, digitsToNat t.data, digitsToNat rp.data, mp)
    | _, _, _, _ => none

/-- `winner_side_from_notice`. -/
def sideFromNotice (s : String) : String :=
  if s = ("CT" : String) then "CT" else "T"

structure OvRound where
  round_no : Nat
  start_ts : Option Nat
  end_ts : Option Nat
  complete : Bool
  winner_side : Option String
  winner_team : Option String
  score_after : Option (Nat × Nat)
  notice : Option String
deriving DecidableEq, Repr

structure OvState where
  mapName : Option String
  teamCT : Option String
  teamT : Option String
  lastScore : Option (Nat × Nat × Nat × String)
  rounds : List OvRound
  openR : Option OvRound
deriving DecidableEq, Repr

def ovInit : OvState :=
  { mapName := none, teamCT := none, teamT := none, lastScore := none,
    rounds := [], openR := none }

/-- The map/team/score bookkeeping at the top of the loop body of
`match_overview2json.main` (these assignments never touch `rounds` or
the open round). -/
def ovMetaStep (st : OvState) (body : String) : OvState :=
  let st1 :=
    match ovMatchStart body with
    | some mp => { st with mapName := some mp }
    | none => st
  let st2 :=
    match ovTeamPlaying body with
    | some (side, team) =>
      if side = ("CT" : String) then { st1 with teamCT := some (strTrim team) }
      else { st1 with teamT := some (strTrim team) }
    | none => st1
  match ovScore body with
  | some sc => { st2 with lastScore := some sc }
  | none => st2

/-- The round start/notice/end segmentation part of the loop body of
`match_overview2json.main`. -/
def ovRoundStep (st : OvState) (ts : Option Nat) (body : String) : OvState :=
  if ovRoundStartB body then
    match st.openR with
    | some r =>
      { st with
        rounds := st.rounds ++ [{ r with complete := false }],
        openR := some { round_no := (st.rounds ++ [{ r with complete := false }]).length + 1,
                        start_ts := ts, end_ts := none,
                        complete := false, winner_side := none, winner_team := none,
                        score_after := none, notice := none } }
    | none =>
      { st with
        openR := some { round_no := st.rounds.length + 1, start_ts := ts, end_ts := none,
                        complete := false, winner_side := none, winner_team := none,
                        score_after := none, notice := none } }
  else
    let st3 :=
      match ovNotice body, st.openR with
      | some (side, ntc, ct, t), some r =>
        { st with
          openR := some { r with
                          winner_side := some (sideFromNotice side),
                          notice := some ntc, score_after := some (ct, t) } }
      | _, _ => st
    if ovRoundEndB body then
      match st3.openR with
      | some r =>
        { st3 with
          rounds := st3.rounds ++ [{ r with end_ts := ts, complete := true }],
          openR := none }
      | none => st3
    else st3

/-- One iteration of `match_overview2json.main`'s line loop. -/
def ovStep (st : OvState) (raw : String) : OvState :=
  ovRoundStep (ovMetaStep st (parseTsBody raw).2) (parseTsBody raw).1 (parseTsBody raw).2

/-- Post-loop processing of `main`: flush a still-open round (flagged
incomplete) and resolve `winner_team` from the team-by-side mapping. -/
def ovFinal (st : OvState) : List OvRound :=
  let rounds :=
    match st.openR with
    | some r => st.rounds ++ [{ r with complete := false }]
    | none => st.rounds
  rounds.map (fun r =>
    if r.winner_side = some ("CT" : String) then { r with winner_team := st.teamCT }
    else if r.winner_side = some ("T" : String) then { r with winner_team := st.teamT }
    else r)

/-- The `rounds` list produced by `match_overview2json.main`. -/
def overviewRounds (raws : List String) : List OvRound :=
  ovFinal (raws.foldl ovStep ovInit)

/-! ## Spec-side definitions and concrete inputs -/

/-- Round sequence of the parsed-line stream starting from an arbitrary
segmenter state (for the round-index invariant proofs). -/
def rndSeq (st : IterState) (ls : List String) : List Nat :=
  (iterGo st ls).filterMap (fun r => r.round)

/-- Adjacent step of a dense non-decreasing sequence: repeat or +1. -/
def stepRel (a b : Nat) : Prop :=
  b = a ∨ b = a + 1

instance : DecidableRel stepRel := fun a b => by
  unfold stepRel
  infer_instance

/-- The round-index property claimed of the normalised dataframe: the
per-line indices form a dense monotonically increasing sequence starting
at 1 (first index 1; each later index repeats its predecessor or
increments it by one). -/
def denseFromOne (l : List Nat) : Prop :=
  l.head? = some 1 ∧ List.Chain' stepRel l

/-- Final kill count of attacker `a` over a round's kill events. -/
def killsOf (evs : List KillEvent) (a : String) : Nat :=
  (evs.filter (fun e => e.killed_by = a)).length

/-- Scan for the first event at which its attacker's running kill count
reaches `m`, starting from running counts `counts`. -/
def ftrGo (counts : String → Nat) (m : Nat) : List KillEvent → Option String
  | [] => none
  | ev :: evs =>
    if counts ev.killed_by + 1 = m then some ev.killed_by
    else ftrGo (fun a => if a = ev.killed_by then counts ev.killed_by + 1 else counts a) m evs

/-- Modelled from the spec's words: the earliest attacker to reach kill
count `m`, scanning the events in order ("first-to-reach-the-max"). -/
def firstToReach (evs : List KillEvent) (m : Nat) : Option String :=
  ftrGo (fun _ => 0) m evs

/-- C1 counterexample input: one complete round, a restart marker, then
a second complete round. -/
def exC1 : List String :=
  [("11/28/2021 - 20:00:00: World triggered \"Round_Start\""),
   ("11/28/2021 - 20:00:10: \"Alice<5><STEAM_X><CT>\" killed \"Bob<7><STEAM_Y><TERRORIST>\" with \"ak47\" (headshot)"),
   ("11/28/2021 - 20:01:00: World triggered \"Round_End\""),
   ("11/28/2021 - 20:02:00: World triggered \"Restart_Round_(1 second)\""),
   ("11/28/2021 - 20:03:00: World triggered \"Round_Start\""),
   ("11/28/2021 - 20:04:00: World triggered \"Round_End\"")]

/-- C1 witness input: two complete rounds, no restart. -/
def exC1w : List String :=
  [("11/28/2021 - 20:00:00: World triggered \"Round_Start\""),
   ("11/28/2021 - 20:00:10: \"Alice<5><STEAM_X><CT>\" killed \"Bob<7><STEAM_Y><TERRORIST>\" with \"ak47\" (headshot)"),
   ("11/28/2021 - 20:01:00: World triggered \"Round_End\""),
   ("11/28/2021 - 20:03:00: World triggered \"Round_Start\""),
   ("11/28/2021 - 20:04:00: World triggered \"Round_End\"")]

def exC2 : String :=
  "11/28/2021 - 20:05:10: 'Alice<5><STEAM_X><CT>' killed other 'chicken' with 'knife' (headshot)"

/-- C3 counterexample input: a started round with one event line and no
`Round_End` before end of file. -/
def exC3 : List String :=
  [("11/28/2021 - 20:00:00: World triggered \"Round_Start\""),
   ("11/28/2021 - 20:00:05: something happened")]

/-- C3 witness input for the overlay-dialect segmenter. -/
def exC3w : List String :=
  [("11/28/2021 - 20:00:00: World triggered 'Round_Start'"),
   ("11/28/2021 - 20:00:10: Team 'CT' triggered 'SFUI_Notice_CTs_Win' (CT '1') (T '0')"),
   ("11/28/2021 - 20:00:20: World triggered 'Round_End'"),
   ("11/28/2021 - 20:01:00: MatchStatus: Team playing 'CT': NAVI"),
   ("11/28/2021 - 20:02:00: World triggered 'Round_Start'"),
   ("11/28/2021 - 20:02:30: some chatter")]

def mkKill (a v : String) : KillEvent :=
  { time := none, killed_by := a, killed := v, weapon := "ak47", is_headshot := false }

/-- C4 witness input: final counts are tied (A and B both 2) but B is the
first to reach 2 in event order, while A is the first attacker inserted. -/
def exC4 : List KillEvent :=
  [mkKill ("A") ("x"), mkKill ("B") ("y"), mkKill ("B") ("z"), mkKill ("A") ("w")]

def exC5 : List String :=
  [("11/28/2021 - 20:05:10: Team 'CT' scored '10' with 5 players"),
   ("11/28/2021 - 20:05:11: Team 'TERRORIST' scored '8' with 5 players"),
   ("11/28/2021 - 20:05:12: MatchStatus: Team playing 'CT': NAVI")]

/-- C6 witness input: matches both the triggered pattern and the
player-verb pattern (verb "triggered"). -/
def exC6 : String :=
  "\"Alice<5><STEAM_X><CT>\" triggered \"clantag\""

/-- C7 witness input: a kill line with only one identifiable player token. -/
def exC7 : String :=
  "11/28/2021 - 20:05:10: \"Alice<5><STEAM_X><CT>\" killed \"Bob\""

def exC8 : String :=
  "11/28/2021 - 20:05:10: 'Alice<5><STEAM_X><CT>' killed 'Bob<7><STEAM_Y><TERRORIST>' with 'headshotmaker'"

def exC8w : String :=
  "11/28/2021 - 20:05:10: 'Alice<5><STEAM_X><CT>' killed 'Bob<7><STEAM_Y><TERRORIST>' with 'ak47' (headshot)"

def exC10 : List String :=
  [("x World triggered \"Round_Start\""),
   ("a \"q\" b"),
   ("y World triggered \"Round_End\"")]

/-- Invariant tying the streaming MVP state after a processed prefix `p`
to the spec's description: `bestK` bounds every final count over `p`,
is achieved by some attacker (unless nothing was processed), and `bestP`
is the first attacker to reach `bestK` in event order. -/
def MvpInv (p : List KillEvent) (bestP : Option String) (bestK : Nat) : Prop :=
  (∀ a, killsOf p a ≤ bestK) ∧
  ((bestK = 0 ∧ bestP = none) ∨ (0 < bestK ∧ ∃ a, killsOf p a = bestK)) ∧
  bestP = firstToReach p bestK

/-! ## Helper lemmas -/

theorem leadsWith_map (f : Char → Char) :
    ∀ n h, leadsWith n h = true → leadsWith (n.map f) (h.map f) = true := by
  intro n
  induction n with
  | nil => intro h _; rfl
  | cons a as ih =>
    intro h hp
    cases h with
    | nil => simp [leadsWith] at hp
    | cons b bs =>
      simp only [leadsWith, Bool.and_eq_true, decide_eq_true_eq] at hp
      obtain ⟨rfl, h2⟩ := hp
      have h3 := ih bs h2
      simp [List.map, leadsWith, h3]

theorem listHasSub_map (f : Char → Char) :
    ∀ hay needle, listHasSub hay needle = true →
      listHasSub (hay.map f) (needle.map f) = true := by
  intro hay
  induction hay with
  | nil =>
    intro needle hp
    cases needle with
    | nil => rfl
    | cons c cs => simp [listHasSub, leadsWith] at hp
  | cons c t ih =>
    intro needle hp
    simp only [listHasSub, Bool.or_eq_true] at hp
    rcases hp with hp | hp
    · simp only [List.map, listHasSub, Bool.or_eq_true]
      exact Or.inl (leadsWith_map f needle (c :: t) hp)
    · simp only [List.map, listHasSub, Bool.or_eq_true]
      exact Or.inr (ih needle hp)

/-! ## Claim theorems -/

/-- C2: for every log line whose message contains "killed other",
`extract_kill_event` returns no `KillEvent`, regardless of what weapon
clause or headshot marker the line also contains. -/
theorem c2_killed_other_no_kill_event (line : String)
    (h : containsSub line ("killed other") = true) :
    extractKillEvent line = none := by
  have h2 := listHasSub_map Char.toLower line.data ("killed other").data h
  have h3 : ("killed other").data.map Char.toLower = ("killed other").data := by decide
  rw [h3] at h2
  have hl : containsSub (strLower line) ("killed other") = true := h2
  unfold extractKillEvent
  simp [hl]

theorem c2_witness :
    containsSub exC2 ("killed other") = true ∧ extractKillEvent exC2 = none :=
  ⟨by decide, c2_killed_other_no_kill_event exC2 (by decide)⟩

/-- C6: for every message body containing a `triggered "X"` marker,
`classify_event` returns `"trigger_"` followed by the slug of `X`; the
triggered pattern takes precedence over all other classification rules. -/
theorem c6_triggered_precedence (msg x : String)
    (h : searchG1 triggeredRE msg = some x) :
    classifyEvent msg = "trigger_" ++ slugify x := by
  unfold classifyEvent
  rw [h]

theorem c6_witness :
    searchG1 triggeredRE exC6 = some ("clantag") ∧
    searchG1 playerVerbRE exC6 = some ("triggered") ∧
    classifyEvent exC6 = "trigger_" ++ slugify ("clantag") :=
  ⟨by decide, by decide, c6_triggered_precedence exC6 ("clantag") (by decide)⟩

/-- C8 counterexample: a kill line whose weapon name contains "headshot"
but which carries no literal "(headshot)" marker still gets
`is_headshot = true` from `extract_kill_event`. -/
theorem c8_counterexample :
    extractKillEvent exC8 =
      some { time := some ("20:05:10"), killed_by := "Alice", killed := "Bob",
             weapon := "headshotmaker", is_headshot := true } ∧
    containsSub exC8 ("(headshot)") = false :=
  ⟨by decide, by decide⟩

/-- C8 (amended): for every line from which `extract_kill_event` extracts
a `KillEvent`, the `is_headshot` flag is true iff the lower-cased line
contains the substring "headshot" (which the literal "(headshot)" marker
implies, but which weaker occurrences also satisfy). -/
theorem c8_headshot_flag (line : String) (ev : KillEvent)
    (h : extractKillEvent line = some ev) :
    ev.is_headshot = containsSub (strLower line) ("headshot") := by
  unfold extractKillEvent at h
  split at h
  · exact absurd h (by simp)
  · split at h
    · exact absurd h (by simp)
    · split at h
      · exact absurd h (by simp)
      · split at h
        · exact absurd h (by simp)
        · injection h with h
          subst h
          rfl

theorem c8_witness :
    extractKillEvent exC8w =
      some { time := some ("20:05:10"), killed_by := "Alice", killed := "Bob",
             weapon := "ak47", is_headshot := true } ∧
    ({ time := some ("20:05:10"), killed_by := "Alice", killed := "Bob",
       weapon := "ak47", is_headshot := true } : KillEvent).is_headshot =
      containsSub (strLower exC8w) ("headshot") :=
  ⟨by decide, c8_headshot_flag exC8w _ (by decide)⟩

/-- C9: aggregation is idempotent on its own output: re-running
`compute_round_mvp` on the `kill_events` stored in a summary built by
`build_round_summary` returns exactly the stored MVP fields, and the
stored `total_kills` is the length of `kill_events`. -/
theorem c9_aggregation_idempotent (lines : List String) :
    computeRoundMVP (buildRoundSummary lines).kill_events =
      ((buildRoundSummary lines).mvp_kills_player, (buildRoundSummary lines).mvp_kills) ∧
    (buildRoundSummary lines).kill_events.length = (buildRoundSummary lines).total_kills := by
  unfold buildRoundSummary
  rcases hk : lines.filterMap extractKillEvent with _ | ⟨e, es⟩ <;>
    rcases ht : inferRoundTimes lines with _ | ⟨a, b⟩ <;>
      simp [hk, ht, computeRoundMVP, mvpGo]

theorem c9_witness :
    computeRoundMVP (buildRoundSummary exC5).kill_events =
      ((buildRoundSummary exC5).mvp_kills_player, (buildRoundSummary exC5).mvp_kills) ∧
    (buildRoundSummary exC5).kill_events.length = (buildRoundSummary exC5).total_kills :=
  c9_aggregation_idempotent exC5

theorem gnr_values_nonempty :
    ∀ (ls : List String) (inR : Bool) (num : Nat) (key : Option String)
      (evs : List String) (acc : List (String × List String)),
      (∀ e ∈ acc, e.2 ≠ []) → ∀ e ∈ gnrGo inR num key evs acc ls, e.2 ≠ [] := by
  intro ls
  induction ls with
  | nil => intro _ _ _ _ acc hacc e he; exact hacc e he
  | cons l ls ih =>
    intro inR num key evs acc hacc e he
    unfold gnrGo at he
    split at he
    · exact ih _ _ _ _ _ hacc e he
    · split at he
      · refine ih _ _ _ _ _ ?_ e he
        split
        · exact hacc
        · intro e' he'
          rcases List.mem_append.1 he' with h' | h'
          · exact hacc e' h'
          · rcases List.mem_singleton.1 h' with rfl
            rename_i hEmp
            intro hnil
            have hev : evs = [] := hnil
            subst hev
            simp at hEmp
      · split at he
        · exact ih _ _ _ _ _ hacc e he
        · exact ih _ _ _ _ _ hacc e he

/-- C10: every value in the mapping returned by `group_non_empty_rounds`
is a non-empty list of lines; an empty round yields no entry at all. -/
theorem c10_values_nonempty (lines : List String) (k : String) (v : List String)
    (h : (k, v) ∈ groupNonEmptyRounds lines) : v ≠ [] :=
  gnr_values_nonempty lines false 0 none [] [] (by intro e he; cases he) (k, v) h

theorem c10_witness :
    (("round_1", [("a 'q' b")]) ∈ groupNonEmptyRounds exC10) ∧
    ([("a 'q' b")] : List String) ≠ [] :=
  ⟨by decide, c10_values_nonempty exC10 ("round_1") [("a 'q' b")] (by decide)⟩

/-- C5: `extract_winner` returns a null winning side and null winning
team exactly when the CT score is missing, the TERRORIST score is
missing, or the two final scores are equal; otherwise it returns the
side with the strictly greater final score. -/
theorem c5_winner_null_iff (lines : List String) :
    (((extractWinner lines).1 = none ∧ (extractWinner lines).2 = none) ↔
      ((extractScores lines).1 = none ∨ (extractScores lines).2 = none ∨
        (extractScores lines).1 = (extractScores lines).2)) ∧
    (∀ a b : Nat, (extractScores lines).1 = some a → (extractScores lines).2 = some b →
      a ≠ b →
      (extractWinner lines).1 =
        some (if b < a then ("CT" : String) else ("TERRORIST" : String))) := by
  unfold extractWinner
  rcases h1 : (extractScores lines).1 with _ | a
  · rcases h2 : (extractScores lines).2 with _ | b <;> simp [h1, h2]
  · rcases h2 : (extractScores lines).2 with _ | b
    · simp [h1, h2]
    · by_cases hab : a = b
      · subst hab
        simp [h1, h2]
      · simp [h1, h2, hab]

theorem c5_witness :
    (((extractWinner exC5).1 = none ∧ (extractWinner exC5).2 = none) ↔
      ((extractScores exC5).1 = none ∨ (extractScores exC5).2 = none ∨
        (extractScores exC5).1 = (extractScores exC5).2)) ∧
    (∀ a b : Nat, (extractScores exC5).1 = some a → (extractScores exC5).2 = some b →
      a ≠ b →
      (extractWinner exC5).1 =
        some (if b < a then ("CT" : String) else ("TERRORIST" : String))) :=
  c5_winner_null_iff exC5

/-- C7: a kill line inside an open round with fewer than two identifiable
player tokens is still emitted by `iter_parsed_lines`, with the attacker
and victim identity fields all null, rather than being discarded. -/
theorem c7_partial_kill_retained (st : IterState) (line d tm msg : String) (dt : Nat)
    (hTok : tokLine (strTrim line) = some (d, tm, msg))
    (hDt : dtParse d tm = some dt)
    (hIn : st.inRound = true)
    (hNR : classifyEvent msg ∉ restartEvents)
    (hK : containsSub msg (" killed ") = true)
    (hP : ¬ 2 ≤ (firstNPlayers msg 2).length) :
    ∃ row : ParsedLine, (iterStep st line).2 = some row ∧
      row.msg = msg ∧
      row.attacker_name = none ∧ row.attacker_userid = none ∧
      row.attacker_steam = none ∧ row.attacker_team = none ∧
      row.victim_name = none ∧ row.victim_userid = none ∧
      row.victim_steam = none ∧ row.victim_team = none := by
  have hNR' : classifyEvent msg ≠ ("trigger_restart_round_1_second" : String) := by
    intro h
    rw [h] at hNR
    simp [restartEvents] at hNR
  unfold iterStep
  simp only [hTok, hDt]
  by_cases hstart : classifyEvent msg = ("trigger_round_start" : String) <;>
    simp [hstart, roundStartEvents, roundEndEvents, restartEvents, hNR', hIn,
      killFields, hK, hP, emptyPF]

theorem c7_witness :
    ∃ row : ParsedLine,
      (iterStep { inRound := true, currentRound := some 3 } exC7).2 = some row ∧
      row.msg = "\"Alice<5><STEAM_X><CT>\" killed \"Bob\"" ∧
      row.attacker_name = none ∧ row.attacker_userid = none ∧
      row.attacker_steam = none ∧ row.attacker_team = none ∧
      row.victim_name = none ∧ row.victim_userid = none ∧
      row.victim_steam = none ∧ row.victim_team = none :=
  c7_partial_kill_retained { inRound := true, currentRound := some 3 } exC7
    ("11/28/2021") ("20:05:10") ("\"Alice<5><STEAM_X><CT>\" killed \"Bob\"")
    (dtParse ("11/28/2021") ("20:05:10") |>.getD 0)
    (by decide) (by decide) (by decide) (by decide) (by decide) (by decide)

theorem killsOf_cons (e : KillEvent) (l : List KillEvent) (a : String) :
    killsOf (e :: l) a = if e.killed_by = a then killsOf l a + 1 else killsOf l a := by
  unfold killsOf
  by_cases h : e.killed_by = a <;> simp [List.filter_cons, h]

theorem killsOf_append (xs ys : List KillEvent) (a : String) :
    killsOf (xs ++ ys) a = killsOf xs a + killsOf ys a := by
  unfold killsOf
  rw [List.filter_append, List.length_append]

theorem killsOf_single (e : KillEvent) (a : String) :
    killsOf [e] a = if e.killed_by = a then 1 else 0 := by
  rw [killsOf_cons]
  by_cases h : e.killed_by = a <;> simp [h, killsOf]

theorem ftrGo_none_of_lt (m : Nat) :
    ∀ (p : List KillEvent) (counts : String → Nat),
      (∀ a, counts a + killsOf p a < m) → ftrGo counts m p = none := by
  intro p
  induction p with
  | nil => intro counts _; rfl
  | cons ev evs ih =>
    intro counts h
    have hev := h ev.killed_by
    rw [killsOf_cons, if_pos rfl] at hev
    have h1 : counts ev.killed_by + 1 ≠ m := by omega
    unfold ftrGo
    rw [if_neg h1]
    apply ih
    intro a
    have ha := h a
    rw [killsOf_cons] at ha
    by_cases hk : ev.killed_by = a
    · subst hk
      rw [if_pos rfl] at ha ⊢
      omega
    · rw [if_neg hk] at ha
      rw [if_neg (fun hh => hk hh.symm)]
      omega

theorem ftrGo_none_bound (m : Nat) :
    ∀ (p : List KillEvent) (counts : String → Nat),
      ftrGo counts m p = none → ∀ a, counts a < m → counts a + killsOf p a < m := by
  intro p
  induction p with
  | nil =>
    intro counts _ a ha
    simp only [killsOf, List.filter_nil, List.length_nil]
    omega
  | cons ev evs ih =>
    intro counts h a ha
    unfold ftrGo at h
    by_cases h1 : counts ev.killed_by + 1 = m
    · rw [if_pos h1] at h
      exact absurd h (by simp)
    · rw [if_neg h1] at h
      have hrec := ih _ h
      rw [killsOf_cons]
      by_cases hk : ev.killed_by = a
      · subst hk
        rw [if_pos rfl]
        have h2 : counts ev.killed_by + 1 < m := by omega
        have h3 := hrec ev.killed_by (by rw [if_pos rfl]; omega)
        rw [if_pos rfl] at h3
        omega
      · rw [if_neg hk]
        have h3 := hrec a (by rw [if_neg (fun hh => hk hh.symm)]; exact ha)
        rw [if_neg (fun hh => hk hh.symm)] at h3
        omega

theorem ftrGo_some_ge (m : Nat) :
    ∀ (p : List KillEvent) (counts : String → Nat) (x : String),
      ftrGo counts m p = some x → m ≤ counts x + killsOf p x := by
  intro p
  induction p with
  | nil => intro counts x h; exact absurd h (by simp [ftrGo])
  | cons ev evs ih =>
    intro counts x h
    unfold ftrGo at h
    by_cases h1 : counts ev.killed_by + 1 = m
    · rw [if_pos h1] at h
      injection h with h
      subst h
      rw [killsOf_cons, if_pos rfl]
      omega
    · rw [if_neg h1] at h
      have h3 := ih _ x h
      rw [killsOf_cons]
      by_cases hk : ev.killed_by = x
      · subst hk
        rw [if_pos rfl]
        rw [if_pos rfl] at h3
        omega
      · rw [if_neg hk]
        rw [if_neg (fun hh => hk hh.symm)] at h3
        omega

theorem ftrGo_append (m : Nat) :
    ∀ (xs ys : List KillEvent) (counts : String → Nat),
      ftrGo counts m (xs ++ ys) =
        match ftrGo counts m xs with
        | some x => some x
        | none => ftrGo (fun a => counts a + killsOf xs a) m ys := by
  intro xs
  induction xs with
  | nil => intro ys counts; rfl
  | cons ev evs ih =>
    intro ys counts
    show ftrGo counts m (ev :: (evs ++ ys)) = _
    unfold ftrGo
    by_cases h1 : counts ev.killed_by + 1 = m
    · rw [if_pos h1, if_pos h1]
    · rw [if_neg h1, if_neg h1]
      rw [ih ys _]
      have hfun : (fun a => (if a = ev.killed_by then counts ev.killed_by + 1 else counts a)
          + killsOf evs a) = (fun a => counts a + killsOf (ev :: evs) a) := by
        funext a
        rw [killsOf_cons]
        by_cases hk : a = ev.killed_by
        · subst hk
          rw [if_pos rfl, if_pos rfl]
          omega
        · rw [if_neg hk, if_neg (fun hh => hk hh.symm)]
      rw [hfun]
      rcases hx : ftrGo (fun a => if a = ev.killed_by then counts ev.killed_by + 1 else counts a)
          m evs with _ | x
      · cases ys <;> rfl
      · rfl

theorem mvpGo_preserves :
    ∀ (rest p : List KillEvent) (bestP : Option String) (bestK : Nat),
      MvpInv p bestP bestK →
      MvpInv (p ++ rest)
        (mvpGo (fun a => killsOf p a) bestP bestK rest).1
        (mvpGo (fun a => killsOf p a) bestP bestK rest).2 := by
  intro rest
  induction rest with
  | nil =>
    intro p bestP bestK h
    simpa [mvpGo] using h
  | cons ev evs ih =>
    intro p bestP bestK h
    obtain ⟨hA, hB, hC⟩ := h
    have hcounts : (fun a => if a = ev.killed_by then killsOf p ev.killed_by + 1 else killsOf p a)
        = (fun a => killsOf (p ++ [ev]) a) := by
      funext a
      rw [killsOf_append, killsOf_single]
      by_cases hk : a = ev.killed_by
      · subst hk
        rw [if_pos rfl, if_pos rfl]
      · rw [if_neg hk, if_neg (fun hh => hk hh.symm)]
        omega
    have happ : p ++ ev :: evs = (p ++ [ev]) ++ evs := by simp
    unfold mvpGo
    by_cases hlt : bestK < killsOf p ev.killed_by + 1
    · rw [if_pos hlt, hcounts, happ]
      apply ih
      refine ⟨?_, Or.inr ⟨Nat.succ_pos _, ⟨ev.killed_by, ?_⟩⟩, ?_⟩
      · intro a
        rw [killsOf_append, killsOf_single]
        by_cases hk : ev.killed_by = a
        · rw [if_pos hk, ← hk]
        · rw [if_neg hk]
          have := hA a
          omega
      · rw [killsOf_append, killsOf_single, if_pos rfl]
      · unfold firstToReach
        rw [ftrGo_append]
        have hnone : ftrGo (fun _ => 0) (killsOf p ev.killed_by + 1) p = none := by
          apply ftrGo_none_of_lt
          intro a
          have := hA a
          omega
        rw [hnone]
        have hz : (fun a => (fun _ => (0 : Nat)) a + killsOf p a) = fun a => killsOf p a := by
          funext a
          simp
        rw [hz]
        unfold ftrGo
        rw [if_pos rfl]
    · rw [if_neg hlt, hcounts, happ]
      apply ih
      have hle : killsOf p ev.killed_by + 1 ≤ bestK := Nat.not_lt.mp hlt
      refine ⟨?_, ?_, ?_⟩
      · intro a
        rw [killsOf_append, killsOf_single]
        by_cases hk : ev.killed_by = a
        · rw [if_pos hk, ← hk]
          omega
        · rw [if_neg hk]
          have := hA a
          omega
      · rcases hB with ⟨h0b, _⟩ | ⟨hpos, ⟨a0, ha0⟩⟩
        · exfalso
          omega
        · refine Or.inr ⟨hpos, ⟨a0, ?_⟩⟩
          have hne : ev.killed_by ≠ a0 := by
            intro hh
            rw [hh] at hle
            omega
          rw [killsOf_append, killsOf_single, if_neg hne]
          omega
      · unfold firstToReach at hC ⊢
        rw [ftrGo_append]
        rcases hfp : ftrGo (fun _ => (0 : Nat)) bestK p with _ | x
        · exfalso
          rcases hB with ⟨h0, _⟩ | ⟨hpos, ⟨a0, ha0⟩⟩
          · omega
          · have hbd := ftrGo_none_bound bestK p _ hfp a0 (by simpa using hpos)
            have hbd2 : (0 : Nat) + killsOf p a0 < bestK := hbd
            omega
        · rw [hfp] at hC
          simpa using hC

/-- C4: `compute_round_mvp` returns the attacker with the highest kill
count, and among attackers tied at the final maximum it returns the one
who was first to reach that count scanning the events in order
(streaming max-tracking). -/
theorem c4_mvp_streaming (evs : List KillEvent) (h : evs ≠ []) :
    (∀ a, killsOf evs a ≤ (computeRoundMVP evs).2) ∧
    (computeRoundMVP evs).1 = firstToReach evs (computeRoundMVP evs).2 ∧
    ∃ p, (computeRoundMVP evs).1 = some p ∧ killsOf evs p = (computeRoundMVP evs).2 := by
  have base : MvpInv [] none 0 := by
    refine ⟨?_, Or.inl ⟨rfl, rfl⟩, rfl⟩
    intro a
    simp [killsOf]
  have main := mvpGo_preserves evs [] none 0 base
  have hceq : mvpGo (fun a => killsOf [] a) none 0 evs = computeRoundMVP evs := rfl
  rw [hceq, List.nil_append] at main
  obtain ⟨hA, hB, hC⟩ := main
  refine ⟨hA, hC, ?_⟩
  rcases hB with ⟨h0, _⟩ | ⟨hpos, ⟨a0, ha0⟩⟩
  · exfalso
    rcases evs with _ | ⟨e, es⟩
    · exact h rfl
    · have h1 : 1 ≤ killsOf (e :: es) e.killed_by := by
        rw [killsOf_cons, if_pos rfl]
        omega
      have h2 := hA e.killed_by
      omega
  · rcases hfp : (computeRoundMVP evs).1 with _ | x
    · exfalso
      rw [hfp] at hC
      unfold firstToReach at hC
      have hbd := ftrGo_none_bound (computeRoundMVP evs).2 evs (fun _ => 0) hC.symm a0
        (by simpa using hpos)
      have hbd2 : (0 : Nat) + killsOf evs a0 < (computeRoundMVP evs).2 := hbd
      omega
    · refine ⟨x, rfl, ?_⟩
      rw [hfp] at hC
      unfold firstToReach at hC
      have hge := ftrGo_some_ge (computeRoundMVP evs).2 evs (fun _ => 0) x hC.symm
      have hge2 : (computeRoundMVP evs).2 ≤ 0 + killsOf evs x := hge
      have hle := hA x
      omega

theorem c4_witness :
    exC4 ≠ [] ∧
    ((∀ a, killsOf exC4 a ≤ (computeRoundMVP exC4).2) ∧
      (computeRoundMVP exC4).1 = firstToReach exC4 (computeRoundMVP exC4).2 ∧
      ∃ p, (computeRoundMVP exC4).1 = some p ∧ killsOf exC4 p = (computeRoundMVP exC4).2) :=
  ⟨by decide, c4_mvp_streaming exC4 (by decide)⟩

theorem ovMetaStep_keeps (st : OvState) (b : String) :
    (ovMetaStep st b).rounds = st.rounds ∧ (ovMetaStep st b).openR = st.openR := by
  unfold ovMetaStep
  rcases ovMatchStart b with _ | mp <;>
    rcases ovTeamPlaying b with _ | p <;>
      rcases ovScore b with _ | sc <;>
        simp <;>
          (try rcases p with ⟨side, team⟩) <;>
            (try by_cases hcs : side = ("CT" : String)) <;> simp [hcs]

theorem ovRoundStep_len (st : OvState) (ts : Option Nat) (body : String) :
    (ovRoundStep st ts body).rounds.length +
        ((ovRoundStep st ts body).openR.elim 0 fun _ => 1) =
      st.rounds.length + (st.openR.elim 0 fun _ => 1) +
        (if ovRoundStartB body then 1 else 0) := by
  unfold ovRoundStep
  by_cases hs : ovRoundStartB body <;> by_cases he : ovRoundEndB body <;>
    rcases ho : st.openR with _ | r <;>
      rcases hn : ovNotice body with _ | ⟨side, ntc, ct, t⟩ <;>
        simp [hs, he, ho, hn] <;> omega

theorem ovRoundStep_countP (st : OvState) (ts : Option Nat) (body : String) :
    (ovRoundStep st ts body).rounds.countP (fun r => r.complete) ≤
      st.rounds.countP (fun r => r.complete) + (if ovRoundEndB body then 1 else 0) := by
  unfold ovRoundStep
  by_cases hs : ovRoundStartB body <;> by_cases he : ovRoundEndB body <;>
    rcases ho : st.openR with _ | r <;>
      rcases hn : ovNotice body with _ | ⟨side, ntc, ct, t⟩ <;>
        simp [hs, he, ho, hn, List.countP_append, List.countP_cons] <;> omega

theorem ovRoundStep_incomplete (st : OvState) (ts : Option Nat) (body : String)
    (hAll : ∀ r ∈ st.rounds, r.complete = false)
    (hOpen : ∀ r, st.openR = some r → r.complete = false)
    (hend : ovRoundEndB body = false) :
    (∀ r ∈ (ovRoundStep st ts body).rounds, r.complete = false) ∧
    (∀ r, (ovRoundStep st ts body).openR = some r → r.complete = false) := by
  have hr0 := fun r => hOpen r
  unfold ovRoundStep
  by_cases hs : ovRoundStartB body <;>
    rcases ho : st.openR with _ | r <;>
      rcases hn : ovNotice body with _ | ⟨side, ntc, ct, t⟩ <;>
        simp [hs, hend, ho, hn, List.mem_append] <;>
          first
          | exact hAll
          | (intro r' hr'
             rcases hr' with h' | h'
             · exact hAll r' h'
             · rcases h' with rfl
               rfl)
          | (refine ⟨fun r' hr' => ?_, ?_⟩ <;>
              first
              | (rcases hr' with h' | h'
                 · exact hAll r' h'
                 · rcases h' with rfl
                   rfl)
              | rfl
              | exact hAll r' hr'
              | rfl)
          | exact ⟨hAll, hOpen r ho⟩
          | exact ⟨hAll, fun r' hr' => by rw [← hr']; exact hOpen r ho⟩

theorem ovFold_spec (raws : List String) :
    ∀ st : OvState,
      ((raws.foldl ovStep st).rounds.length +
          ((raws.foldl ovStep st).openR.elim 0 fun _ => 1) =
        st.rounds.length + (st.openR.elim 0 fun _ => 1) +
          raws.countP (fun l => ovRoundStartB (parseTsBody l).2)) ∧
      ((raws.foldl ovStep st).rounds.countP (fun r => r.complete) ≤
        st.rounds.countP (fun r => r.complete) +
          raws.countP (fun l => ovRoundEndB (parseTsBody l).2)) ∧
      ((∀ r ∈ st.rounds, r.complete = false) →
        (∀ r, st.openR = some r → r.complete = false) →
        raws.countP (fun l => ovRoundEndB (parseTsBody l).2) = 0 →
        (∀ r ∈ (raws.foldl ovStep st).rounds, r.complete = false) ∧
        (∀ r, (raws.foldl ovStep st).openR = some r → r.complete = false)) := by
  induction raws with
  | nil =>
    intro st
    refine ⟨by simp, by simp, ?_⟩
    intro h1 h2 _
    exact ⟨h1, h2⟩
  | cons l ls ih =>
    intro st
    have hmeta := ovMetaStep_keeps st (parseTsBody l).2
    have hlen := ovRoundStep_len (ovMetaStep st (parseTsBody l).2)
      (parseTsBody l).1 (parseTsBody l).2
    have hcnt := ovRoundStep_countP (ovMetaStep st (parseTsBody l).2)
      (parseTsBody l).1 (parseTsBody l).2
    have hrec := ih (ovStep st l)
    have hstep_eq : ovStep st l =
        ovRoundStep (ovMetaStep st (parseTsBody l).2) (parseTsBody l).1 (parseTsBody l).2 := rfl
    rw [hmeta.1, hmeta.2] at hlen
    rw [hmeta.1] at hcnt
    rw [← hstep_eq] at hlen hcnt
    refine ⟨?_, ?_, ?_⟩
    · rw [List.foldl_cons, List.countP_cons]
      have h1 := hrec.1
      by_cases hs : ovRoundStartB (parseTsBody l).2 <;>
        simp only [hs, if_true, if_false] at hlen ⊢ <;> omega
    · rw [List.foldl_cons, List.countP_cons]
      have h1 := hrec.2.1
      by_cases he : ovRoundEndB (parseTsBody l).2 <;>
        simp only [he, if_true, if_false] at hcnt ⊢ <;> omega
    · intro hAll hOpen hz
      rw [List.countP_cons] at hz
      have hend0 : ovRoundEndB (parseTsBody l).2 = false := by
        by_cases he : ovRoundEndB (parseTsBody l).2
        · simp [he] at hz
        · simpa using he
      have hstep := ovRoundStep_incomplete (ovMetaStep st (parseTsBody l).2)
        (parseTsBody l).1 (parseTsBody l).2
        (by rw [hmeta.1]; exact hAll) (by rw [hmeta.2]; exact hOpen) hend0
      rw [← hstep_eq] at hstep
      have hz2 : ls.countP (fun l => ovRoundEndB (parseTsBody l).2) = 0 := by
        rw [hend0, if_neg (show ¬(false = true) by decide)] at hz
        omega
      rw [List.foldl_cons]
      exact hrec.2.2 hstep.1 hstep.2 hz2

theorem ovResolve_complete (st : OvState) (r : OvRound) :
    (if r.winner_side = some ("CT" : String) then { r with winner_team := st.teamCT }
     else if r.winner_side = some ("T" : String) then { r with winner_team := st.teamT }
     else r).complete = r.complete := by
  by_cases h1 : r.winner_side = some ("CT" : String)
  · simp [h1]
  · by_cases h2 : r.winner_side = some ("T" : String) <;> simp [h1, h2]

theorem countP_complete_map (st : OvState) (l : List OvRound) :
    (l.map (fun r =>
      if r.winner_side = some ("CT" : String) then { r with winner_team := st.teamCT }
      else if r.winner_side = some ("T" : String) then { r with winner_team := st.teamT }
      else r)).countP (fun r => r.complete) = l.countP (fun r => r.complete) := by
  induction l with
  | nil => rfl
  | cons r2 t ih =>
    simp only [List.map_cons, List.countP_cons, ih, ovResolve_complete]

theorem ovFinal_spec (st : OvState) :
    (ovFinal st).length = st.rounds.length + (st.openR.elim 0 fun _ => 1) ∧
    (ovFinal st).countP (fun r => r.complete) = st.rounds.countP (fun r => r.complete) ∧
    ((∀ r ∈ st.rounds, r.complete = false) →
      (∀ r, st.openR = some r → r.complete = false) →
      ∀ r ∈ ovFinal st, r.complete = false) := by
  unfold ovFinal
  rcases ho : st.openR with _ | r
  · refine ⟨by simp, ?_, ?_⟩
    · rw [countP_complete_map]
    · intro hAll _ r' hr'
      rcases List.mem_map.1 hr' with ⟨r0, hr0, rfl⟩
      rw [ovResolve_complete]
      exact hAll r0 hr0
  · refine ⟨by simp, ?_, ?_⟩
    · rw [countP_complete_map, List.countP_append]
      simp
    · intro hAll _ r' hr'
      rcases List.mem_map.1 hr' with ⟨r0, hr0, rfl⟩
      rw [ovResolve_complete]
      rcases List.mem_append.1 hr0 with h' | h'
      · exact hAll r0 h'
      · rcases List.mem_singleton.1 h' with rfl
        rfl

/-- C3 counterexample: in `group_non_empty_rounds` a round opened by a
start marker and never closed before end of file is silently dropped:
the output is empty, with no incomplete-flagged entry. -/
theorem c3_counterexample :
    exC3.countP (fun l => containsSub l ("World triggered \"Round_Start\"")) = 1 ∧
    groupNonEmptyRounds exC3 = [] :=
  ⟨by decide, by decide⟩

/-- C3 (amended): in `match_overview2json.main` no round opened by a
start marker is dropped (the output has exactly one entry per start
body) and rounds are flagged complete only as often as end markers
occur; in particular with no end marker before end of file every
emitted round, including the one still open, is flagged incomplete.
In `parse_round_events.group_non_empty_rounds`, by contrast, a started
round with no following end marker is silently dropped. -/
theorem c3_overview_retains_rounds (raws : List String) :
    (overviewRounds raws).length =
      raws.countP (fun l => ovRoundStartB (parseTsBody l).2) ∧
    (overviewRounds raws).countP (fun r => r.complete) ≤
      raws.countP (fun l => ovRoundEndB (parseTsBody l).2) ∧
    (raws.countP (fun l => ovRoundEndB (parseTsBody l).2) = 0 →
      ∀ r ∈ overviewRounds raws, r.complete = false) := by
  have hf := ovFold_spec raws ovInit
  have hfin := ovFinal_spec (raws.foldl ovStep ovInit)
  unfold overviewRounds
  refine ⟨?_, ?_, ?_⟩
  · rw [hfin.1]
    have h1 : (raws.foldl ovStep ovInit).rounds.length +
        ((raws.foldl ovStep ovInit).openR.elim 0 fun _ => 1) =
        0 + 0 + raws.countP (fun l => ovRoundStartB (parseTsBody l).2) := hf.1
    omega
  · rw [hfin.2.1]
    have h1 : (raws.foldl ovStep ovInit).rounds.countP (fun r => r.complete) ≤
        0 + raws.countP (fun l => ovRoundEndB (parseTsBody l).2) := hf.2.1
    omega
  · intro hz r hr
    have h3 := hf.2.2 (by intro r' hr'; simp [ovInit] at hr')
      (by intro r' hr'; simp [ovInit] at hr') hz
    exact hfin.2.2 h3.1 h3.2 r hr

theorem c3_witness :
    (overviewRounds exC3w).length =
      exC3w.countP (fun l => ovRoundStartB (parseTsBody l).2) ∧
    (overviewRounds exC3w).countP (fun r => r.complete) ≤
      exC3w.countP (fun l => ovRoundEndB (parseTsBody l).2) ∧
    (exC3w.countP (fun l => ovRoundEndB (parseTsBody l).2) = 0 →
      ∀ r ∈ overviewRounds exC3w, r.complete = false) :=
  c3_overview_retains_rounds exC3w

theorem stepRel_refl (a : Nat) : stepRel a a :=
  Or.inl rfl

theorem stepRel_succ (a : Nat) : stepRel a (a + 1) :=
  Or.inr rfl

theorem rndSeq_cons (st : IterState) (l : String) (ls : List String) :
    rndSeq st (l :: ls) =
      ((iterStep st l).2.toList.filterMap (fun r => r.round)) ++
        rndSeq (iterStep st l).1 ls := by
  rcases hstep : iterStep st l with ⟨st2, o⟩
  have h1 : iterGo st (l :: ls) = o.toList ++ iterGo st2 ls := by
    show (match iterStep st l with | (st', o) => o.toList ++ iterGo st' ls) = _
    rw [hstep]
  unfold rndSeq
  rw [h1, List.filterMap_append]

theorem rndSeq_chain :
    ∀ (ls : List String) (b : Bool) (c : Nat), 1 ≤ c →
      (∀ l ∈ ls, lineEvent l ≠ some ("trigger_restart_round_1_second")) →
      List.Chain' stepRel (c :: rndSeq { inRound := b, currentRound := some c } ls) := by
  intro ls
  induction ls with
  | nil => intro b c _ _; simp [rndSeq, iterGo]
  | cons l ls ih =>
    intro b c hc hnr
    have hnr' : ∀ x ∈ ls, lineEvent x ≠ some ("trigger_restart_round_1_second") :=
      fun x hx => hnr x (List.mem_cons_of_mem l hx)
    have hnrl := hnr l (List.mem_cons_self l ls)
    rcases htok : tokLine (strTrim l) with _ | ⟨d, tm, msg⟩
    · rw [rndSeq_cons]
      have hstep : iterStep { inRound := b, currentRound := some c } l =
          ({ inRound := b, currentRound := some c }, none) := by
        unfold iterStep
        simp only [htok]
      rw [hstep]
      simpa using ih b c hc hnr'
    · rcases hdt : dtParse d tm with _ | dtv
      · rw [rndSeq_cons]
        have hstep : iterStep { inRound := b, currentRound := some c } l =
            ({ inRound := b, currentRound := some c }, none) := by
          unfold iterStep
          simp only [htok, hdt]
        rw [hstep]
        simpa using ih b c hc hnr'
      · have hev : lineEvent l = some (classifyEvent msg) := by
          unfold lineEvent
          simp only [htok, hdt]
        have hne : classifyEvent msg ≠ ("trigger_restart_round_1_second" : String) := by
          intro h
          rw [h] at hev
          exact hnrl hev
        have hnotres : classifyEvent msg ∉ restartEvents := by
          simp [restartEvents]
          exact hne
        by_cases hstart : classifyEvent msg = ("trigger_round_start" : String)
        · obtain ⟨k, rfl⟩ : ∃ k, c = k + 1 := ⟨c - 1, by omega⟩
          have hmem : classifyEvent msg ∈ roundStartEvents := by
            simp [roundStartEvents, hstart]
          have hnotend : classifyEvent msg ∉ roundEndEvents := by
            simp [roundEndEvents, hstart]
          rw [rndSeq_cons]
          simp only [iterStep, htok, hdt]
          simp [hmem, hnotend, hnotres]
          exact ⟨stepRel_succ (k + 1), ih true (k + 2) (by omega) hnr'⟩
        · have hnotstart : classifyEvent msg ∉ roundStartEvents := by
            simp [roundStartEvents]
            exact hstart
          by_cases hendm : classifyEvent msg ∈ roundEndEvents
          · rw [rndSeq_cons]
            simp only [iterStep, htok, hdt]
            simp [hnotstart, hendm, hnotres]
            exact ⟨stepRel_refl c, ih false c hc hnr'⟩
          · rw [rndSeq_cons]
            simp only [iterStep, htok, hdt]
            cases b
            · simp [hnotstart, hendm, hnotres]
              exact ih false c hc hnr'
            · simp [hnotstart, hendm, hnotres]
              exact ⟨stepRel_refl c, ih true c hc hnr'⟩

theorem rndSeq_none_start :
    ∀ (ls : List String) (b : Bool),
      (∀ l ∈ ls, lineEvent l ≠ some ("trigger_restart_round_1_second")) →
      (rndSeq { inRound := b, currentRound := none } ls = [] ∧
        ∀ l ∈ ls, lineEvent l ≠ some ("trigger_round_start")) ∨
      (∃ L, rndSeq { inRound := b, currentRound := none } ls = 1 :: L ∧
        List.Chain' stepRel (1 :: L)) := by
  intro ls
  induction ls with
  | nil =>
    intro b _
    left
    exact ⟨rfl, by simp⟩
  | cons l ls ih =>
    intro b hnr
    have hnr' : ∀ x ∈ ls, lineEvent x ≠ some ("trigger_restart_round_1_second") :=
      fun x hx => hnr x (List.mem_cons_of_mem l hx)
    have hnrl := hnr l (List.mem_cons_self l ls)
    rcases htok : tokLine (strTrim l) with _ | ⟨d, tm, msg⟩
    · have hle : lineEvent l = none := by
        unfold lineEvent
        simp only [htok]
      have hstep : iterStep { inRound := b, currentRound := none } l =
          ({ inRound := b, currentRound := none }, none) := by
        unfold iterStep
        simp only [htok]
      rw [rndSeq_cons, hstep]
      simp only [Option.toList, List.filterMap_nil, List.nil_append]
      rcases ih b hnr' with ⟨h1, h2⟩ | ⟨L, h1, h2⟩
      · left
        refine ⟨h1, ?_⟩
        intro x hx
        rcases List.mem_cons.1 hx with rfl | hx'
        · rw [hle]
          simp
        · exact h2 x hx'
      · right
        exact ⟨L, h1, h2⟩
    · rcases hdt : dtParse d tm with _ | dtv
      · have hle : lineEvent l = none := by
          unfold lineEvent
          simp only [htok, hdt]
        have hstep : iterStep { inRound := b, currentRound := none } l =
            ({ inRound := b, currentRound := none }, none) := by
          unfold iterStep
          simp only [htok, hdt]
        rw [rndSeq_cons, hstep]
        simp only [Option.toList, List.filterMap_nil, List.nil_append]
        rcases ih b hnr' with ⟨h1, h2⟩ | ⟨L, h1, h2⟩
        · left
          refine ⟨h1, ?_⟩
          intro x hx
          rcases List.mem_cons.1 hx with rfl | hx'
          · rw [hle]
            simp
          · exact h2 x hx'
        · right
          exact ⟨L, h1, h2⟩
      · have hev : lineEvent l = some (classifyEvent msg) := by
          unfold lineEvent
          simp only [htok, hdt]
        have hne : classifyEvent msg ≠ ("trigger_restart_round_1_second" : String) := by
          intro h
          rw [h] at hev
          exact hnrl hev
        have hnotres : classifyEvent msg ∉ restartEvents := by
          simp [restartEvents]
          exact hne
        by_cases hstart : classifyEvent msg = ("trigger_round_start" : String)
        · right
          have hmem : classifyEvent msg ∈ roundStartEvents := by
            simp [roundStartEvents, hstart]
          have hnotend : classifyEvent msg ∉ roundEndEvents := by
            simp [roundEndEvents, hstart]
          rw [rndSeq_cons]
          simp only [iterStep, htok, hdt]
          simp [hmem, hnotend, hnotres]
          exact rndSeq_chain ls true 1 (by omega) hnr'
        · have hnotstart : classifyEvent msg ∉ roundStartEvents := by
            simp [roundStartEvents]
            exact hstart
          have hnost : ∀ res,
              (res = rndSeq { inRound := false, currentRound := none } ls ∨
               res = rndSeq { inRound := true, currentRound := none } ls) →
              ((res = [] ∧ ∀ x ∈ l :: ls, lineEvent x ≠ some ("trigger_round_start")) ∨
                (∃ L, res = 1 :: L ∧ List.Chain' stepRel (1 :: L))) := by
            intro res hres
            have hlstart : lineEvent l ≠ some ("trigger_round_start") := by
              rw [hev]
              intro hq
              injection hq with hq
              exact hstart hq
            rcases hres with rfl | rfl
            · rcases ih false hnr' with ⟨h1, h2⟩ | ⟨L, h1, h2⟩
              · left
                refine ⟨h1, ?_⟩
                intro x hx
                rcases List.mem_cons.1 hx with rfl | hx'
                · exact hlstart
                · exact h2 x hx'
              · right
                exact ⟨L, h1, h2⟩
            · rcases ih true hnr' with ⟨h1, h2⟩ | ⟨L, h1, h2⟩
              · left
                refine ⟨h1, ?_⟩
                intro x hx
                rcases List.mem_cons.1 hx with rfl | hx'
                · exact hlstart
                · exact h2 x hx'
              · right
                exact ⟨L, h1, h2⟩
          by_cases hendm : classifyEvent msg ∈ roundEndEvents
          · rw [rndSeq_cons]
            simp only [iterStep, htok, hdt]
            simp [hnotstart, hendm, hnotres]
            rcases hnost _ (Or.inl rfl) with ⟨h1, h2⟩ | hr
            · exact Or.inl ⟨h1, h2 l (List.mem_cons_self l ls),
                fun a ha => h2 a (List.mem_cons_of_mem l ha)⟩
            · exact Or.inr hr
          · rw [rndSeq_cons]
            simp only [iterStep, htok, hdt]
            cases b
            · simp [hnotstart, hendm, hnotres]
              rcases hnost _ (Or.inl rfl) with ⟨h1, h2⟩ | hr
              · exact Or.inl ⟨h1, h2 l (List.mem_cons_self l ls),
                  fun a ha => h2 a (List.mem_cons_of_mem l ha)⟩
              · exact Or.inr hr
            · simp [hnotstart, hendm, hnotres]
              rcases hnost _ (Or.inr rfl) with ⟨h1, h2⟩ | hr
              · exact Or.inl ⟨h1, h2 l (List.mem_cons_self l ls),
                  fun a ha => h2 a (List.mem_cons_of_mem l ha)⟩
              · exact Or.inr hr

theorem chain_ge :
    ∀ (L : List Nat) (c : Nat), List.Chain' stepRel (c :: L) → ∀ x ∈ L, c ≤ x := by
  intro L
  induction L with
  | nil => intro c _ x hx; cases hx
  | cons y L ih =>
    intro c hch x hx
    rw [List.chain'_cons] at hch
    obtain ⟨hcy, hch'⟩ := hch
    unfold stepRel at hcy
    rcases List.mem_cons.1 hx with rfl | hx'
    · rcases hcy with h | h <;> omega
    · have := ih y hch' x hx'
      rcases hcy with h | h <;> omega

theorem listMin_mem : ∀ (L : List Nat) (m : Nat), listMin L = some m → m ∈ L := by
  intro L
  induction L with
  | nil => intro m h; simp [listMin] at h
  | cons x xs ih =>
    intro m h
    unfold listMin at h
    rcases hx : listMin xs with _ | m'
    · rw [hx] at h
      injection h with h
      subst h
      exact List.mem_cons_self x xs
    · rw [hx] at h
      injection h with h
      unfold Nat.min at h
      by_cases hxm : x ≤ m'
      · have hmx : m = x := by omega
        rw [hmx]
        exact List.mem_cons_self x xs
      · have hmx : m = m' := by omega
        rw [hmx]
        exact List.mem_cons_of_mem x (ih m' hx)

theorem listMin_head_one (L : List Nat) (h : ∀ x ∈ L, 1 ≤ x) :
    listMin (1 :: L) = some 1 := by
  unfold listMin
  rcases hx : listMin L with _ | m
  · rfl
  · have hm := listMin_mem L m hx
    have h1 := h m hm
    show some (Nat.min 1 m) = some 1
    exact congrArg some (min_eq_left h1)

/-- C1 counterexample: a restart marker mid-capture makes the derived
round counter emit indices `[1, 1, 1, 0, 1, 1]`: the restart line itself
carries index 0 and the post-restart rounds restart at 1, so the
normalised round column is not a dense monotonically increasing sequence
starting at 1, even though the input contains complete rounds. -/
theorem c1_counterexample :
    (∃ l, l ∈ exC1 ∧ lineEvent l = some ("trigger_round_start")) ∧
    (∃ l, l ∈ exC1 ∧ lineEvent l = some ("trigger_round_end")) ∧
    dfRounds exC1 = [1, 1, 1, 0, 1, 1] ∧
    ¬ denseFromOne (dfRounds exC1) := by
  refine ⟨by decide, by decide, by decide, ?_⟩
  rw [show dfRounds exC1 = [1, 1, 1, 0, 1, 1] from by decide]
  intro hd
  obtain ⟨-, hch⟩ := hd
  rw [List.chain'_cons, List.chain'_cons, List.chain'_cons] at hch
  have h3 := hch.2.2.1
  unfold stepRel at h3
  omega

/-- C1 (amended): for every input log with at least one round start and
no restart marker, the non-null round indices attached to emitted lines
by `iter_parsed_lines` and normalized by `parse_to_dataframe` form a
dense non-decreasing sequence starting at 1; a restart marker instead
resets the counter, so the indices restart at 1 (the restart line itself
carrying index 0) and global monotonicity is lost. -/
theorem c1_rounds_dense_no_restart (raws : List String)
    (hNR : ∀ l ∈ raws, lineEvent l ≠ some ("trigger_restart_round_1_second"))
    (hS : ∃ l, l ∈ raws ∧ lineEvent l = some ("trigger_round_start")) :
    denseFromOne (dfRounds raws) := by
  rcases rndSeq_none_start raws false hNR with ⟨h1, h2⟩ | ⟨L, h1, h2⟩
  · obtain ⟨l, hl, he⟩ := hS
    exact absurd he (h2 l hl)
  · have hpre : (iterParsedLines raws).filterMap (fun r => r.round) = 1 :: L := h1
    have hge1 : ∀ x ∈ L, 1 ≤ x := chain_ge L 1 h2
    have hmin : listMin ((iterParsedLines raws).filterMap (fun r => r.round)) = some 1 := by
      rw [hpre]
      exact listMin_head_one L hge1
    unfold dfRounds parseToDataframe
    simp only [hmin]
    rw [if_neg (by omega : ¬ (1 : Nat) < 1)]
    rw [hpre]
    exact ⟨rfl, h2⟩

theorem c1_witness :
    (∀ l ∈ exC1w, lineEvent l ≠ some ("trigger_restart_round_1_second")) ∧
    (∃ l, l ∈ exC1w ∧ lineEvent l = some ("trigger_round_start")) ∧
    denseFromOne (dfRounds exC1w) :=
  ⟨by decide, by decide,
    c1_rounds_dense_no_restart exC1w (by decide) (by decide)⟩
